import Mathlib

/-!
Verification of the subscription-tracking service (repository `tz`).

The development shallowly embeds the Go source:
* `internal/service/subscription.go` — the subscription service: validation,
  date codec (`parseDate`, `parseTimeToString`), cost aggregation
  (`SubscriptionsCost`, `monthsBetween`, `minTime`, `maxTime`).
* `internal/repository/subscription.go` — the SQL-backed repository, embedded
  as pure state transformers over an in-memory table (`List Subscription`).
* `internal/dto` — request/response shapes, including `MakeSubscriptionsOutput`.
* `internal/domain` — entities and error values.

Go `time.Time` values are modelled by `GoTime`: a record of calendar
components (all times in this service are UTC; the service never performs
timezone conversion).  Comparison is lexicographic on the components, which
agrees with Go's instant comparison for canonical component values.
Machine integers are modelled by `Int`/`Nat` (Go `int` is 64-bit here; the
only place the width is observable is `strconv.Atoi`'s range check, which is
modelled explicitly).
-/

/-- Model of Go `time.Time` (UTC): calendar components, compared
lexicographically.  `nsec` covers everything below a second. -/
structure GoTime where
  year : Int
  month : Int
  day : Int
  hour : Int
  minute : Int
  sec : Int
  nsec : Int
deriving DecidableEq, Repr

/-- Go `t.Before(u)`: strict instant order.  On canonical calendar
components the instant order is exactly the lexicographic order of the
components. -/
def GoTime.before (a b : GoTime) : Bool :=
  decide (a.year < b.year ∨ (a.year = b.year ∧ (a.month < b.month ∨ (a.month = b.month ∧
    (a.day < b.day ∨ (a.day = b.day ∧ (a.hour < b.hour ∨ (a.hour = b.hour ∧
    (a.minute < b.minute ∨ (a.minute = b.minute ∧ (a.sec < b.sec ∨ (a.sec = b.sec ∧
    a.nsec < b.nsec))))))))))))

/-- Go `t.After(u)`. -/
def GoTime.after (a b : GoTime) : Bool := GoTime.before b a

/-- Model of `maxTime` from `internal/service/subscription.go`. -/
def maxTime (a b : GoTime) : GoTime := if a.after b then a else b

/-- Model of `minTime` from `internal/service/subscription.go`. -/
def minTime (a b : GoTime) : GoTime := if a.before b then a else b

/-- Model of `time.Date(t.Year(), t.Month(), 1, 0, 0, 0, 0, t.Location())`:
normalization to the first instant of the month, as done inside
`monthsBetween`. -/
def firstOfMonth (t : GoTime) : GoTime :=
  { year := t.year, month := t.month, day := 1, hour := 0, minute := 0, sec := 0, nsec := 0 }

/-- Model of `monthsBetween` from `internal/service/subscription.go`: normalize both
endpoints to the first of their month, return 0 if the end precedes the
start, else `(endYear-startYear)*12 + (endMonth-startMonth)`. -/
def monthsBetween (start finish : GoTime) : Int :=
  let s := firstOfMonth start
  let e := firstOfMonth finish
  if e.before s then 0
  else (e.year - s.year) * 12 + (e.month - s.month)

/-- The Go zero `time.Time` (January 1, year 1, 00:00:00 UTC). -/
def GoTime.zero : GoTime := ⟨1, 1, 1, 0, 0, 0, 0⟩

/-- Model of `time.Date(year, time.Month(month), 1, 0, 0, 0, 0, time.UTC)` as built by
`parseDate` (month is only ever 1..12 there, so no field normalization
occurs).  The model keeps the year exact; Go's `time.Date` is exact only
while its internal `uint64` day/second arithmetic cannot overflow — which
holds for every calendar year `0..9999` but fails for astronomically large
years still within `int64`.  Theorems that assert properties of the
constructed value therefore restrict to the calendar range. -/
def mkMonthDate (year month : Int) : GoTime :=
  { year := year, month := month, day := 1, hour := 0, minute := 0, sec := 0, nsec := 0 }

/-! ### Characters, digits and decimal formatting (Go `strconv` / `fmt`) -/

/-- ASCII decimal digit test, as `strconv` applies byte-wise
(`'0' <= c && c <= '9'`). -/
def isDigitChar (c : Char) : Bool := 48 ≤ c.toNat && c.toNat ≤ 57

/-- Numeric value of an ASCII digit character (`c - '0'`). -/
def charToDigit (c : Char) : Nat := c.toNat - 48

/-- The ASCII character of a decimal digit. -/
def digitToChar (n : Nat) : Char :=
  match n with
  | 0 => '0' | 1 => '1' | 2 => '2' | 3 => '3' | 4 => '4'
  | 5 => '5' | 6 => '6' | 7 => '7' | 8 => '8' | _ => '9'

/-- Fuel-driven decimal digit expansion (most significant first); the fuel is
always sufficient at the call site in `natToChars`. -/
def natToCharsGo : Nat → Nat → List Char
  | 0, _ => []
  | fuel + 1, n =>
    if n < 10 then [digitToChar n]
    else natToCharsGo fuel (n / 10) ++ [digitToChar (n % 10)]

/-- Decimal representation of a natural number, most significant digit
first. -/
def natToChars (n : Nat) : List Char := natToCharsGo (n + 1) n

/-- Go `fmt` verb `%d` on an `int`. -/
def intToChars (n : Int) : List Char :=
  if n < 0 then '-' :: natToChars n.natAbs else natToChars n.toNat

/-- Go `fmt` verb `%02d` on an `int`: zero-pad to width 2 (negative values of
width ≥ 2 are unaffected; only months 1..12 reach this in the source). -/
def sprintf02d (n : Int) : List Char :=
  if n < 0 then '-' :: natToChars n.natAbs
  else if n < 10 then '0' :: natToChars n.toNat
  else natToChars n.toNat

/-- Go `strings.Split(s, sep)` for a one-character separator, on the
character list: `Split("", "-") = [""]`, separators between every pair of
adjacent fragments. -/
def splitChar (sep : Char) : List Char → List (List Char)
  | [] => [[]]
  | c :: rest =>
    if c = sep then [] :: splitChar sep rest
    else
      match splitChar sep rest with
      | [] => [[c]]
      | r :: rs => (c :: r) :: rs

/-- All characters are ASCII digits. -/
def allDigits (cs : List Char) : Bool := cs.all isDigitChar

/-- Decimal value of a digit string, accumulated left to right. -/
def digitsVal (cs : List Char) : Nat :=
  cs.foldl (fun acc c => acc * 10 + charToDigit c) 0

/-- Go `strconv.Atoi` (= `ParseInt(s, 10, 0)` with 64-bit `int`): an optional
single leading `+`/`-` followed by one or more ASCII digits, value within
`int64`; `none` models a non-nil error. -/
def goAtoi (cs : List Char) : Option Int :=
  match cs with
  | [] => none
  | c :: rest =>
    let neg := c = '-'
    let ds := if c = '-' ∨ c = '+' then rest else cs
    if ds.isEmpty then none
    else if allDigits ds then
      let v : Int := if neg then -(digitsVal ds : Int) else (digitsVal ds : Int)
      if v < -(2 ^ 63) ∨ v > 2 ^ 63 - 1 then none else some v
    else none

/-- Error values of the service layer.  `invalidDateFormat` and `invalidDate`
are `domain.ErrInvalidDateFormat` / `domain.ErrInvalidDate`; `notFound` is
`domain.ErrNotFound`; `endBeforeStart` is the dedicated
"end_date must be after start_date" error; `invalidUserID` the
"invalid user_id" wrap of a `uuid.Parse` failure; `storage` any other
repository error. -/
inductive ServiceError where
  | invalidDateFormat
  | invalidDate
  | invalidUserID
  | endBeforeStart
  | notFound
  | storage
deriving DecidableEq, Repr

deriving instance DecidableEq for Except

/-- Model of `parseDate` from `internal/service/subscription.go`: split on `-`; two
segments required (`ErrInvalidDateFormat` otherwise); both segments must be
`strconv.Atoi`-parseable and the month in `[1,12]` (`ErrInvalidDate`
otherwise); result is the first of the month, 00:00:00 UTC. -/
def parseDate (dateStr : String) : Except ServiceError GoTime :=
  match splitChar '-' dateStr.data with
  | [p0, p1] =>
    match goAtoi p0 with
    | none => .error .invalidDate
    | some month =>
      match goAtoi p1 with
      | none => .error .invalidDate
      | some year =>
        if month < 1 ∨ month > 12 then .error .invalidDate
        else .ok (mkMonthDate year month)
  | _ => .error .invalidDateFormat

/-- Model of `parseTimeToString` from `internal/service/subscription.go`:
`fmt.Sprintf("%02d-%d", t.Month(), t.Year())`. -/
def parseTimeToString (t : GoTime) : String :=
  ⟨sprintf02d t.month ++ '-' :: intToChars t.year⟩

/-! ### UUIDs (external dependency `github.com/google/uuid`) -/

/-- A UUID: 16 bytes.  Models `uuid.UUID` from the external
`github.com/google/uuid` package. -/
structure UUID where
  bytes : List Nat
deriving DecidableEq, Repr

/-- Value of an ASCII hexadecimal digit. -/
def hexVal (c : Char) : Option Nat :=
  if 48 ≤ c.toNat ∧ c.toNat ≤ 57 then some (c.toNat - 48)
  else if 97 ≤ c.toNat ∧ c.toNat ≤ 102 then some (c.toNat - 87)
  else if 65 ≤ c.toNat ∧ c.toNat ≤ 70 then some (c.toNat - 55)
  else none

/-- Bytes of a hex-digit string taken in pairs. -/
def hexPairs : List Char → Option (List Nat)
  | [] => some []
  | [_] => none
  | a :: b :: rest => do
    let hi ← hexVal a
    let lo ← hexVal b
    let r ← hexPairs rest
    return (hi * 16 + lo) :: r

/-- Model of `uuid.Parse` from the external `github.com/google/uuid` package,
restricted to the canonical `xxxxxxxx-xxxx-xxxx-xxxx-xxxxxxxxxxxx` form (the
only form this repository's clients use; the library also accepts braced,
URN-prefixed and 32-character forms). -/
def uuidParse (s : String) : Option UUID :=
  match s.data with
  | q1 :: q2 :: q3 :: q4 :: q5 :: q6 :: q7 :: q8 :: w1 :: q9 :: q10 :: q11 ::
    q12 :: w2 :: q13 :: q14 :: q15 :: q16 :: w3 :: q17 :: q18 :: q19 :: q20 ::
    w4 :: q21 :: q22 :: q23 :: q24 :: q25 :: q26 :: q27 :: q28 :: q29 :: q30 ::
    q31 :: q32 :: [] =>
    if w1 = '-' ∧ w2 = '-' ∧ w3 = '-' ∧ w4 = '-' then
      (hexPairs [q1,q2,q3,q4,q5,q6,q7,q8,q9,q10,q11,q12,q13,q14,q15,q16,
                 q17,q18,q19,q20,q21,q22,q23,q24,q25,q26,q27,q28,q29,q30,q31,q32]).map UUID.mk
    else none
  | _ => none

/-- Lower-case hex character of a value below 16. -/
def hexChar (n : Nat) : Char :=
  match n with
  | 0 => '0' | 1 => '1' | 2 => '2' | 3 => '3' | 4 => '4' | 5 => '5' | 6 => '6'
  | 7 => '7' | 8 => '8' | 9 => '9' | 10 => 'a' | 11 => 'b' | 12 => 'c'
  | 13 => 'd' | 14 => 'e' | _ => 'f'

/-- Two hex characters of a byte. -/
def byteHex (b : Nat) : List Char := [hexChar (b / 16 % 16), hexChar (b % 16)]

/-- Model of `uuid.UUID.String()`: canonical hyphenated lower-case hex form. -/
def uuidToString (u : UUID) : String :=
  let hex := fun (bs : List Nat) => (bs.map byteHex).flatten
  ⟨hex (u.bytes.take 4) ++ '-' :: hex ((u.bytes.drop 4).take 2) ++
   '-' :: hex ((u.bytes.drop 6).take 2) ++ '-' :: hex ((u.bytes.drop 8).take 2) ++
   '-' :: hex (u.bytes.drop 10)⟩

/-! ### Domain entities (`internal/domain/subscription.go`) -/

/-- Model of `domain.Subscription`. -/
structure Subscription where
  id : UUID
  serviceName : String
  price : Int
  userID : UUID
  startDate : GoTime
  endDate : Option GoTime
  createdAt : GoTime
  updatedAt : GoTime
deriving DecidableEq, Repr

/-- Model of `domain.UpdateSubscription`: every field optional, absent = unchanged. -/
structure UpdateSubscription where
  serviceName : Option String
  price : Option Int
  startDate : Option GoTime
  endDate : Option GoTime
deriving DecidableEq, Repr

/-- Model of `domain.SubscriptionFilter`. -/
structure SubscriptionFilter where
  userID : Option UUID
  serviceName : Option String
  limit : Int
  offset : Int
deriving DecidableEq, Repr

/-- Model of `domain.CostRequest`. -/
structure CostRequest where
  userID : Option UUID
  serviceName : Option String
deriving DecidableEq, Repr

/-! ### DTO shapes (`internal/dto/subscription.go`) -/

/-- Model of `dto.CreateSubscriptionRequest`. -/
structure CreateSubscriptionRequest where
  serviceName : String
  price : Int
  userID : String
  startDate : String
  endDate : Option String
deriving DecidableEq, Repr

/-- Model of `dto.UpdateSubscriptionRequest`. -/
structure UpdateSubscriptionRequest where
  serviceName : Option String
  price : Option Int
  startDate : Option String
  endDate : Option String
deriving DecidableEq, Repr

/-- Model of `dto.SubscriptionFilter` (query-string shape). -/
structure SubscriptionFilterRequest where
  userID : Option String
  serviceName : Option String
  page : Int
  pageSize : Int
deriving DecidableEq, Repr

/-- Model of `dto.CostRequest` (query-string shape). -/
structure CostFilterRequest where
  userID : Option String
  serviceName : Option String
  fromDate : Option String
  toDate : Option String
deriving DecidableEq, Repr

/-- Model of `dto.SubscriptionOutput`. -/
structure SubscriptionOutput where
  id : String
  serviceName : String
  price : Int
  userID : String
  startDate : String
  endDate : Option String
  createdAt : String
  updatedAt : String
deriving DecidableEq, Repr

/-- Model of `dto.SubscriptionsOutput` (paginated list response). -/
structure SubscriptionsOutput where
  total : Int
  page : Int
  pageSize : Int
  hasNextPage : Bool
  hasPrevPage : Bool
  subscriptions : List SubscriptionOutput
deriving DecidableEq, Repr

/-- Model of `dto.MakeSubscriptionsOutput`: wraps a page of rows with pagination
metadata `has_next_page = total > page*pageSize`, `has_prev_page = page > 1`. -/
def MakeSubscriptionsOutput (subscriptions : List SubscriptionOutput)
    (total page pageSize : Int) : SubscriptionsOutput :=
  { total := total
    page := page
    pageSize := pageSize
    hasNextPage := decide (total > page * pageSize)
    hasPrevPage := decide (page > 1)
    subscriptions := subscriptions }

/-- Zero-pad a digit string on the left to the given width (used by the
fixed-width components of Go's `time` layout `2006-01-02 15:04:05`). -/
def padZeros (width : Nat) (cs : List Char) : List Char :=
  List.replicate (width - cs.length) '0' ++ cs

/-- Go `t.Format(time.DateTime)`, layout `2006-01-02 15:04:05`. -/
def formatDateTime (t : GoTime) : String :=
  ⟨padZeros 4 (intToChars t.year) ++ '-' :: sprintf02d t.month ++
   '-' :: sprintf02d t.day ++ ' ' :: sprintf02d t.hour ++
   ':' :: sprintf02d t.minute ++ ':' :: sprintf02d t.sec⟩

/-- Model of `subscriptionToDto` from `internal/service/subscription.go`. -/
def subscriptionToDto (s : Subscription) : SubscriptionOutput :=
  { id := uuidToString s.id
    serviceName := s.serviceName
    price := s.price
    userID := uuidToString s.userID
    startDate := parseTimeToString s.startDate
    endDate := s.endDate.map parseTimeToString
    createdAt := formatDateTime s.createdAt
    updatedAt := formatDateTime s.updatedAt }

/-! ### Repository (`internal/repository/subscription.go`)

The SQL store is embedded as an in-memory table `List Subscription`; each
repository method is the pure state transformer the corresponding SQL
statement denotes.  Errors use the same `ServiceError` values the Go code
maps them to (`sql.ErrNoRows` → `domain.ErrNotFound`, etc.). -/

/-- Row predicate of the generated `WHERE` clause for listing
(`user_id = $i` / `service_name = $j`, both optional, conjoined). -/
def matchesFilter (userID : Option UUID) (serviceName : Option String)
    (s : Subscription) : Bool :=
  (match userID with | none => true | some u => decide (s.userID = u)) &&
  (match serviceName with | none => true | some n => decide (s.serviceName = n))

/-- Model of `SubscriptionRepository.SubscriptionByID`: `SELECT ... WHERE id = $1`;
no row → `domain.ErrNotFound`. -/
def repoSubscriptionByID (db : List Subscription) (id : UUID) :
    Except ServiceError Subscription :=
  match db.find? (fun s => decide (s.id = id)) with
  | none => .error .notFound
  | some s => .ok s

/-- Model of `SubscriptionRepository.CreateSubscription`: `INSERT ... RETURNING ...`;
the database stamps `created_at`/`updated_at` with `NOW()` (modelled by the
`now` argument). -/
def repoCreateSubscription (now : GoTime) (db : List Subscription)
    (sub : Subscription) : Except ServiceError (Subscription × List Subscription) :=
  let stamped := { sub with createdAt := now, updatedAt := now }
  .ok (stamped, db ++ [stamped])

/-- Model of `SubscriptionRepository.Subscriptions`: a `COUNT(*)` under the filter,
then (unless the count is 0) a page of rows under the same filter with
`LIMIT`/`OFFSET`. -/
def repoSubscriptions (db : List Subscription) (filter : SubscriptionFilter) :
    Except ServiceError (List Subscription × Int) :=
  let rows := db.filter (matchesFilter filter.userID filter.serviceName)
  let total : Int := rows.length
  if total = 0 then .ok ([], 0)
  else .ok ((rows.drop filter.offset.toNat).take filter.limit.toNat, total)

/-- Model of `SubscriptionRepository.SubscriptionsCost`: all rows under the
user/service filter, unpaginated. -/
def repoSubscriptionsCost (db : List Subscription) (filter : CostRequest) :
    Except ServiceError (List Subscription) :=
  .ok (db.filter (matchesFilter filter.userID filter.serviceName))

/-- Whether the partial update supplies at least one field (the Go code
builds the `SET` list from the present fields; this is `len(set) != 0`
before `updated_at` is appended). -/
def hasAnyField (u : UpdateSubscription) : Bool :=
  u.serviceName.isSome || u.price.isSome || u.startDate.isSome || u.endDate.isSome

/-- Effect of the generated `UPDATE ... SET` on one row: overwrite exactly
the supplied fields and stamp `updated_at` with `time.Now()`. -/
def applyUpdate (now : GoTime) (u : UpdateSubscription) (s : Subscription) :
    Subscription :=
  { s with
    serviceName := u.serviceName.getD s.serviceName
    price := u.price.getD s.price
    startDate := u.startDate.getD s.startDate
    endDate := match u.endDate with | none => s.endDate | some e => some e
    updatedAt := now }

/-- Model of `SubscriptionRepository.UpdateSubscription`: with an empty `SET` list the
method returns `SubscriptionByID` (no write); otherwise it runs
`UPDATE ... WHERE id = $n RETURNING ...`, with zero returned rows mapped to
`domain.ErrNotFound`. -/
def repoUpdateSubscription (now : GoTime) (db : List Subscription) (id : UUID)
    (u : UpdateSubscription) : Except ServiceError (Subscription × List Subscription) :=
  if hasAnyField u = false then
    (repoSubscriptionByID db id).map (fun s => (s, db))
  else
    match db.find? (fun s => decide (s.id = id)) with
    | none => .error .notFound
    | some s =>
      .ok (applyUpdate now u s,
           db.map (fun r => if r.id = id then applyUpdate now u r else r))

/-- Model of `SubscriptionRepository.DeleteSubscription`: `DELETE ... WHERE id = $1`;
zero rows affected → `domain.ErrNotFound`. -/
def repoDeleteSubscription (db : List Subscription) (id : UUID) :
    Except ServiceError (List Subscription) :=
  let remaining := db.filter (fun s => !(decide (s.id = id)))
  if remaining.length = db.length then .error .notFound
  else .ok remaining

/-! ### Service (`internal/service/subscription.go`)

Each service method is embedded as a pure function; the repository is either
taken as a function argument (cost aggregation, creation — matching the
`SubscriptionRepositoryI` interface) or instantiated with the repository
model above (list / update / delete).  `time.Now()` and `uuid.New()` are
explicit arguments. -/

/-- The `filter.UserID` conversion done by `Subscriptions` and
`SubscriptionsCost`: absent stays absent, a present string must parse as a
UUID. -/
def parseOptUserID (s? : Option String) : Except ServiceError (Option UUID) :=
  match s? with
  | none => .ok none
  | some s =>
    match uuidParse s with
    | none => .error .invalidUserID
    | some u => .ok (some u)

/-- The optional `from`/`to` (and update `start_date`/`end_date`) parsing:
absent stays absent, a present string must `parseDate`. -/
def parseOptDate (s? : Option String) : Except ServiceError (Option GoTime) :=
  match s? with
  | none => .ok none
  | some s =>
    match parseDate s with
    | .error e => .error e
    | .ok d => .ok (some d)

/-- The clipped interval start of one candidate subscription inside
`SubscriptionsCost`: `calcStart = maxTime(actualStart, queryFrom)` when a
`from` bound was supplied, else `actualStart`. -/
def clipStart (fromD : Option GoTime) (sub : Subscription) : GoTime :=
  match fromD with
  | none => sub.startDate
  | some sd => maxTime sub.startDate sd

/-- The clipped interval end of one candidate subscription inside
`SubscriptionsCost`: the actual end is the recorded end month if present,
otherwise `now`; `calcEnd = minTime(actualEnd, queryTo)` when a `to` bound
was supplied, else `actualEnd`. -/
def clipEnd (now : GoTime) (toD : Option GoTime) (sub : Subscription) : GoTime :=
  let actualEnd := match sub.endDate with | none => now | some e => e
  match toD with
  | none => actualEnd
  | some ed => minTime actualEnd ed

/-- One candidate's contribution to the cost total: 0 when the clipped
interval is empty (`calcEnd < calcStart`), else
`price * monthsBetween(calcStart, calcEnd)`. -/
def costContribution (now : GoTime) (fromD toD : Option GoTime)
    (sub : Subscription) : Int :=
  if (clipEnd now toD sub).before (clipStart fromD sub) then 0
  else sub.price * monthsBetween (clipStart fromD sub) (clipEnd now toD sub)

/-- The accumulation loop of `SubscriptionsCost`: `total := 0`, then for each
candidate either `continue` (empty clipped interval) or
`total += sub.Price * monthsBetween(calcStart, calcEnd)`. -/
def costLoop (now : GoTime) (fromD toD : Option GoTime)
    (subs : List Subscription) : Int :=
  subs.foldl
    (fun total sub =>
      if (clipEnd now toD sub).before (clipStart fromD sub) then total
      else total + sub.price * monthsBetween (clipStart fromD sub) (clipEnd now toD sub))
    0

/-- Model of `SubscriptionService.SubscriptionsCost`: parse the optional user id, the
optional `from` and `to` bounds (each failure rejects the request before the
fetch), fetch the unpaginated candidate set through the repository, then run
the accumulation loop at the evaluation instant `now`. -/
def serviceSubscriptionsCost (now : GoTime) (req : CostFilterRequest)
    (repo : CostRequest → Except ServiceError (List Subscription)) :
    Except ServiceError Int := do
  let userID ← parseOptUserID req.userID
  let fromD ← parseOptDate req.fromDate
  let toD ← parseOptDate req.toDate
  let subs ← repo { userID := userID, serviceName := req.serviceName }
  return costLoop now fromD toD subs

/-- Model of `SubscriptionService.CreateSubscription`: parse the start date, parse the
end date when present and reject `end < start` with the dedicated ordering
error, parse the user id, then build the entity with a fresh id (`newID`
models `uuid.New()`) and hand it to the repository create operation. -/
def serviceCreateSubscription (newID : UUID) (req : CreateSubscriptionRequest)
    (repo : Subscription → Except ServiceError Subscription) :
    Except ServiceError SubscriptionOutput := do
  let startDate ← parseDate req.startDate
  let endDate ← match req.endDate with
    | none => pure (none : Option GoTime)
    | some es => do
      let ed ← parseDate es
      if ed.before startDate then Except.error .endBeforeStart
      else pure (some ed)
  let userID ← match uuidParse req.userID with
    | none => Except.error .invalidUserID
    | some u => pure u
  let sub : Subscription :=
    { id := newID
      serviceName := req.serviceName
      price := req.price
      userID := userID
      startDate := startDate
      endDate := endDate
      createdAt := GoTime.zero
      updatedAt := GoTime.zero }
  let subDB ← repo sub
  return subscriptionToDto subDB

/-- Model of `SubscriptionService.Subscriptions`: convert the optional string user id
(invalid → rejected before storage), delegate to the repository with
`Limit = pageSize`, `Offset = (page-1)*pageSize`, map rows to DTOs and wrap
with `MakeSubscriptionsOutput`. -/
def serviceSubscriptions (db : List Subscription)
    (filter : SubscriptionFilterRequest) : Except ServiceError SubscriptionsOutput := do
  let userID ← parseOptUserID filter.userID
  let (subsDB, total) ← repoSubscriptions db
    { userID := userID
      serviceName := filter.serviceName
      limit := filter.pageSize
      offset := (filter.page - 1) * filter.pageSize }
  return MakeSubscriptionsOutput (subsDB.map subscriptionToDto) total
    filter.page filter.pageSize

/-- Model of `SubscriptionService.UpdateSubscription`: parse the optional start and
end dates, reject `end < start` only when both were supplied, then delegate
the partial update to the repository (which returns the current state
untouched when no field was supplied).  Returns the repository's entity
together with the resulting table state. -/
def serviceUpdateSubscription (now : GoTime) (db : List Subscription)
    (id : UUID) (req : UpdateSubscriptionRequest) :
    Except ServiceError (Subscription × List Subscription) := do
  let startDate ← parseOptDate req.startDate
  let endDate ← parseOptDate req.endDate
  let upd : UpdateSubscription :=
    { serviceName := req.serviceName, price := req.price
      startDate := startDate, endDate := endDate }
  match startDate, endDate with
  | some sd, some ed =>
    if ed.before sd then Except.error .endBeforeStart
    else repoUpdateSubscription now db id upd
  | _, _ => repoUpdateSubscription now db id upd

/-- Model of `SubscriptionService.DeleteSubscription`: delegate to the repository;
`domain.ErrNotFound` is surfaced as not-found, anything else as a wrapped
storage failure of the same kind. -/
def serviceDeleteSubscription (db : List Subscription) (id : UUID) :
    Except ServiceError (List Subscription) :=
  match repoDeleteSubscription db id with
  | .error e => .error e
  | .ok db2 => .ok db2

/-! ### Spec-side characterizations of the date codec

These definitions follow the SPEC's words (not the code) and are compared
against `parseDate` in the claims about the codec. -/

/-- Following the spec's words: a string "of the exact form MM-YYYY
(two-digit month 01–12, four-digit year)" — exactly two ASCII digits whose
value is in `[1,12]`, a hyphen, then exactly four ASCII digits. -/
def specExactMMYYYY (s : String) : Bool :=
  match s.data with
  | [m1, m2, sep0, y1, y2, y3, y4] =>
    sep0 = '-' && isDigitChar m1 && isDigitChar m2 && isDigitChar y1 &&
    isDigitChar y2 && isDigitChar y3 && isDigitChar y4 &&
    decide (1 ≤ 10 * charToDigit m1 + charToDigit m2) &&
    decide (10 * charToDigit m1 + charToDigit m2 ≤ 12)
  | _ => false

/-- Shape of a Go integer literal: an optional single leading sign followed
by at least one ASCII digit. -/
def intSegment (cs : List Char) : Bool :=
  match cs with
  | [] => false
  | c :: rest =>
    if c = '-' ∨ c = '+' then !rest.isEmpty && allDigits rest
    else allDigits cs

/-- Signed numeric value of an integer segment. -/
def segmentVal (cs : List Char) : Int :=
  match cs with
  | [] => 0
  | c :: rest =>
    if c = '-' then -(digitsVal rest : Int)
    else if c = '+' then (digitsVal rest : Int)
    else (digitsVal cs : Int)

/-- Success condition of `strconv.Atoi`, stated by shape and value rather
than by running the parser: a signed digit string whose value fits `int64`. -/
def atoiOk (cs : List Char) : Bool :=
  intSegment cs && decide (-(2 ^ 63) ≤ segmentVal cs) &&
    decide (segmentVal cs ≤ 2 ^ 63 - 1)

/-- The success set of the date parser, stated by shape: exactly two
hyphen-separated segments, each an `Atoi`-valid integer, the first with
value in `[1,12]`. -/
def goDateShape (s : String) : Bool :=
  match splitChar '-' s.data with
  | [p0, p1] =>
    atoiOk p0 && atoiOk p1 && decide (1 ≤ segmentVal p0) &&
      decide (segmentVal p0 ≤ 12)
  | _ => false

/-! ### Helper lemmas: digits and decimal formatting -/

theorem char_toNat_inj {c d : Char} (h : c.toNat = d.toNat) : c = d := by
  apply Char.eq_of_val_eq
  apply UInt32.eq_of_val_eq
  apply Fin.eq_of_val_eq
  exact h

theorem digitToChar_toNat : ∀ n < 10, (digitToChar n).toNat = 48 + n := by decide

theorem charToDigit_digitToChar : ∀ n < 10, charToDigit (digitToChar n) = n := by
  decide

theorem isDigitChar_digitToChar : ∀ n < 10, isDigitChar (digitToChar n) = true := by
  decide

theorem isDigitChar_bounds {c : Char} (h : isDigitChar c = true) :
    48 ≤ c.toNat ∧ c.toNat ≤ 57 := by
  simpa [isDigitChar, Bool.and_eq_true, decide_eq_true_eq] using h

theorem isDigitChar_ne_hyphen {c : Char} (h : isDigitChar c = true) : c ≠ '-' := by
  intro he
  rw [he] at h
  exact absurd h (by decide)

theorem isDigitChar_ne_plus {c : Char} (h : isDigitChar c = true) : c ≠ '+' := by
  intro he
  rw [he] at h
  exact absurd h (by decide)

theorem charToDigit_lt_ten {c : Char} (h : isDigitChar c = true) :
    charToDigit c < 10 := by
  have := isDigitChar_bounds h
  unfold charToDigit
  omega

theorem digitToChar_charToDigit {c : Char} (h : isDigitChar c = true) :
    digitToChar (charToDigit c) = c := by
  have hb := isDigitChar_bounds h
  apply char_toNat_inj
  have h10 : charToDigit c < 10 := charToDigit_lt_ten h
  rw [digitToChar_toNat (charToDigit c) h10]
  unfold charToDigit
  omega

theorem charToDigit_zero {c : Char} (hd : isDigitChar c = true)
    (h : charToDigit c = 0) : c = '0' := by
  have := digitToChar_charToDigit hd
  rw [h] at this
  exact this.symm

theorem natToCharsGo_fuel : ∀ f1 : Nat, ∀ f2 n : Nat, n < f1 → n < f2 →
    natToCharsGo f1 n = natToCharsGo f2 n := by
  intro f1
  induction f1 with
  | zero => intro f2 n h1 _; omega
  | succ f ih =>
    intro f2 n h1 h2
    obtain ⟨g, rfl⟩ : ∃ g, f2 = g + 1 := ⟨f2 - 1, by omega⟩
    simp only [natToCharsGo]
    by_cases hn : n < 10
    · simp [hn]
    · simp only [hn, if_false]
      congr 1
      exact ih g (n / 10) (by omega) (by omega)

theorem natToChars_small {n : Nat} (h : n < 10) :
    natToChars n = [digitToChar n] := by
  unfold natToChars
  simp only [natToCharsGo]
  simp [h]

theorem natToChars_step {n : Nat} (h : 10 ≤ n) :
    natToChars n = natToChars (n / 10) ++ [digitToChar (n % 10)] := by
  unfold natToChars
  simp only [natToCharsGo]
  simp only [Nat.not_lt.mpr h, if_false]
  congr 1
  exact natToCharsGo_fuel n (n / 10 + 1) (n / 10) (by omega) (by omega)

theorem natToChars_two {n : Nat} (h1 : 10 ≤ n) (h2 : n ≤ 99) :
    natToChars n = [digitToChar (n / 10), digitToChar (n % 10)] := by
  rw [natToChars_step h1, natToChars_small (by omega)]
  rfl

theorem natToChars_four {a b c d : Nat} (ha1 : 1 ≤ a) (ha : a ≤ 9) (hb : b ≤ 9)
    (hc : c ≤ 9) (hd : d ≤ 9) :
    natToChars (1000 * a + 100 * b + 10 * c + d) =
      [digitToChar a, digitToChar b, digitToChar c, digitToChar d] := by
  have e1 : (1000 * a + 100 * b + 10 * c + d) / 10 = 100 * a + 10 * b + c := by omega
  have e2 : (1000 * a + 100 * b + 10 * c + d) % 10 = d := by omega
  have e3 : (100 * a + 10 * b + c) / 10 = 10 * a + b := by omega
  have e4 : (100 * a + 10 * b + c) % 10 = c := by omega
  rw [natToChars_step (by omega), e1, e2, natToChars_step (by omega), e3, e4,
    natToChars_two (by omega) (by omega)]
  have e5 : (10 * a + b) / 10 = a := by omega
  have e6 : (10 * a + b) % 10 = b := by omega
  rw [e5, e6]
  rfl

/-! ### Helper lemmas: splitting -/

theorem splitChar_no_sep {sep : Char} : ∀ cs : List Char, sep ∉ cs →
    splitChar sep cs = [cs] := by
  intro cs
  induction cs with
  | nil => intro _; rfl
  | cons c rest ih =>
    intro h
    have hc : ¬ c = sep := fun he => h (by simp [he])
    have hr : sep ∉ rest := fun hm => h (by simp [hm])
    simp only [splitChar, hc, if_false, ih hr]

theorem splitChar_append {sep : Char} : ∀ xs ys : List Char, sep ∉ xs →
    splitChar sep (xs ++ sep :: ys) = xs :: splitChar sep ys := by
  intro xs
  induction xs with
  | nil =>
    intro ys _
    simp [splitChar]
  | cons x rest ih =>
    intro ys h
    have hx : ¬ x = sep := fun he => h (by simp [he])
    have hr : sep ∉ rest := fun hm => h (by simp [hm])
    show splitChar sep (x :: (rest ++ sep :: ys)) = (x :: rest) :: splitChar sep ys
    simp only [splitChar, hx, if_false]
    rw [ih ys hr]

/-! ### Helper lemmas: `goAtoi` on plain digit strings -/

theorem digitsVal_pair {a b : Char} :
    digitsVal [a, b] = 10 * charToDigit a + charToDigit b := by
  simp [digitsVal]
  omega

theorem digitsVal_quad {a b c d : Char} :
    digitsVal [a, b, c, d] =
      1000 * charToDigit a + 100 * charToDigit b + 10 * charToDigit c +
        charToDigit d := by
  simp [digitsVal]
  omega

theorem goAtoi_digits {cs : List Char} (hne : cs ≠ []) (hd : allDigits cs = true)
    (hb : (digitsVal cs : Int) ≤ 2 ^ 63 - 1) :
    goAtoi cs = some ((digitsVal cs : Int)) := by
  match cs, hne with
  | c :: rest, _ =>
    have hc : isDigitChar c = true := by
      have hh := hd
      simp only [allDigits, List.all_cons, Bool.and_eq_true] at hh
      exact hh.1
    have h1 : ¬ c = '-' := isDigitChar_ne_hyphen hc
    have h2 : ¬ c = '+' := isDigitChar_ne_plus hc
    have hor : ¬ (c = '-' ∨ c = '+') := by
      rintro (hh | hh)
      exacts [h1 hh, h2 hh]
    have hrange : ¬ ((digitsVal (c :: rest) : Int) < -(2 ^ 63) ∨
        (digitsVal (c :: rest) : Int) > 2 ^ 63 - 1) := by omega
    simp only [goAtoi, if_neg hor, if_neg h1, List.isEmpty_cons, hd, if_true,
      Bool.false_eq_true, if_false, if_neg hrange]

theorem charToDigit_pos {c : Char} (hd : isDigitChar c = true) (h : c ≠ '0') :
    1 ≤ charToDigit c := by
  by_contra hn
  exact h (charToDigit_zero hd (by omega))

theorem sprintf02d_two_digits {c1 c2 : Char} (h1 : isDigitChar c1 = true)
    (h2 : isDigitChar c2 = true)
    (hpos : 1 ≤ 10 * charToDigit c1 + charToDigit c2) :
    sprintf02d ((digitsVal [c1, c2] : Int)) = [c1, c2] := by
  have ha : charToDigit c1 < 10 := charToDigit_lt_ten h1
  have hb : charToDigit c2 < 10 := charToDigit_lt_ten h2
  rw [digitsVal_pair]
  by_cases hz : charToDigit c1 = 0
  · have hc1 : c1 = '0' := charToDigit_zero h1 hz
    have hlt : ((10 * charToDigit c1 + charToDigit c2 : Nat) : Int) < 10 := by omega
    have hnneg : ¬ ((10 * charToDigit c1 + charToDigit c2 : Nat) : Int) < 0 := by
      omega
    unfold sprintf02d
    rw [if_neg hnneg, if_pos hlt]
    have htn : ((10 * charToDigit c1 + charToDigit c2 : Nat) : Int).toNat =
        charToDigit c2 := by omega
    rw [htn, natToChars_small hb, digitToChar_charToDigit h2, hc1]
  · have hge : ¬ ((10 * charToDigit c1 + charToDigit c2 : Nat) : Int) < 10 := by
      omega
    have hnneg : ¬ ((10 * charToDigit c1 + charToDigit c2 : Nat) : Int) < 0 := by
      omega
    unfold sprintf02d
    rw [if_neg hnneg, if_neg hge]
    have htn : ((10 * charToDigit c1 + charToDigit c2 : Nat) : Int).toNat =
        10 * charToDigit c1 + charToDigit c2 := by omega
    rw [htn, natToChars_two (by omega) (by omega)]
    have e1 : (10 * charToDigit c1 + charToDigit c2) / 10 = charToDigit c1 := by
      omega
    have e2 : (10 * charToDigit c1 + charToDigit c2) % 10 = charToDigit c2 := by
      omega
    rw [e1, e2, digitToChar_charToDigit h1, digitToChar_charToDigit h2]

theorem intToChars_four_digits {c4 c5 c6 c7 : Char} (h4 : isDigitChar c4 = true)
    (h5 : isDigitChar c5 = true) (h6 : isDigitChar c6 = true)
    (h7 : isDigitChar c7 = true) (hnz : c4 ≠ '0') :
    intToChars ((digitsVal [c4, c5, c6, c7] : Int)) = [c4, c5, c6, c7] := by
  have ha : charToDigit c4 < 10 := charToDigit_lt_ten h4
  have hb : charToDigit c5 < 10 := charToDigit_lt_ten h5
  have hc : charToDigit c6 < 10 := charToDigit_lt_ten h6
  have hd : charToDigit c7 < 10 := charToDigit_lt_ten h7
  have hpos : 1 ≤ charToDigit c4 := charToDigit_pos h4 hnz
  rw [digitsVal_quad]
  have hnneg : ¬ ((1000 * charToDigit c4 + 100 * charToDigit c5 +
      10 * charToDigit c6 + charToDigit c7 : Nat) : Int) < 0 := by omega
  unfold intToChars
  rw [if_neg hnneg]
  have htn : ((1000 * charToDigit c4 + 100 * charToDigit c5 +
      10 * charToDigit c6 + charToDigit c7 : Nat) : Int).toNat =
      1000 * charToDigit c4 + 100 * charToDigit c5 + 10 * charToDigit c6 +
        charToDigit c7 := by omega
  rw [htn, natToChars_four hpos (by omega) (by omega) (by omega) (by omega),
    digitToChar_charToDigit h4, digitToChar_charToDigit h5,
    digitToChar_charToDigit h6, digitToChar_charToDigit h7]

/-- C4 (amended): for every valid `MM-YYYY` string whose four-digit year does
not begin with the digit `0`, serializing the parsed date yields the string
back, with the month zero-padded to two digits and the year printed without
padding. -/
theorem parseDate_roundTrip (s : String) (hv : specExactMMYYYY s = true)
    (hy : s.data[3]? ≠ some '0') :
    (parseDate s).map parseTimeToString = .ok s := by
  obtain ⟨l⟩ := s
  rcases l with _ | ⟨c1, _ | ⟨c2, _ | ⟨c3, _ | ⟨c4, _ | ⟨c5, _ | ⟨c6, _ | ⟨c7, _ | ⟨c8, tl⟩⟩⟩⟩⟩⟩⟩⟩ <;>
    try exact Bool.noConfusion hv
  simp only [specExactMMYYYY, Bool.and_eq_true, decide_eq_true_eq] at hv
  obtain ⟨⟨⟨⟨⟨⟨⟨⟨hsep, hd1⟩, hd2⟩, hd3⟩, hd4⟩, hd5⟩, hd6⟩, hm1⟩, hm2⟩ := hv
  subst hsep
  have hc4 : c4 ≠ '0' := by
    intro he
    exact hy (by simp [he])
  have hns1 : '-' ∉ [c1, c2] := by
    intro hm
    rcases List.mem_cons.mp hm with he | hm
    · exact isDigitChar_ne_hyphen hd1 he.symm
    · rcases List.mem_cons.mp hm with he | hm
      · exact isDigitChar_ne_hyphen hd2 he.symm
      · simp at hm
  have hns2 : '-' ∉ [c4, c5, c6, c7] := by
    intro hm
    rcases List.mem_cons.mp hm with he | hm
    · exact isDigitChar_ne_hyphen hd3 he.symm
    rcases List.mem_cons.mp hm with he | hm
    · exact isDigitChar_ne_hyphen hd4 he.symm
    rcases List.mem_cons.mp hm with he | hm
    · exact isDigitChar_ne_hyphen hd5 he.symm
    rcases List.mem_cons.mp hm with he | hm
    · exact isDigitChar_ne_hyphen hd6 he.symm
    simp at hm
  have hsplit : splitChar '-' [c1, c2, '-', c4, c5, c6, c7] =
      [[c1, c2], [c4, c5, c6, c7]] := by
    have he : [c1, c2, '-', c4, c5, c6, c7] =
        [c1, c2] ++ '-' :: [c4, c5, c6, c7] := rfl
    rw [he, splitChar_append _ _ hns1, splitChar_no_sep _ hns2]
  have hall1 : allDigits [c1, c2] = true := by
    simp [allDigits, hd1, hd2]
  have hall2 : allDigits [c4, c5, c6, c7] = true := by
    simp [allDigits, hd3, hd4, hd5, hd6]
  have hlt1 : charToDigit c1 < 10 := charToDigit_lt_ten hd1
  have hlt2 : charToDigit c2 < 10 := charToDigit_lt_ten hd2
  have hlt3 : charToDigit c4 < 10 := charToDigit_lt_ten hd3
  have hlt4 : charToDigit c5 < 10 := charToDigit_lt_ten hd4
  have hlt5 : charToDigit c6 < 10 := charToDigit_lt_ten hd5
  have hlt6 : charToDigit c7 < 10 := charToDigit_lt_ten hd6
  have ha1 : goAtoi [c1, c2] = some ((digitsVal [c1, c2] : Int)) :=
    goAtoi_digits (by simp) hall1
      (by rw [digitsVal_pair]; omega)
  have ha2 : goAtoi [c4, c5, c6, c7] = some ((digitsVal [c4, c5, c6, c7] : Int)) :=
    goAtoi_digits (by simp) hall2
      (by rw [digitsVal_quad]; omega)
  have hmonth : ¬ ((digitsVal [c1, c2] : Int) < 1 ∨
      (digitsVal [c1, c2] : Int) > 12) := by
    rw [digitsVal_pair]
    omega
  have hparse : parseDate ⟨[c1, c2, '-', c4, c5, c6, c7]⟩ =
      .ok (mkMonthDate ((digitsVal [c4, c5, c6, c7] : Int))
        ((digitsVal [c1, c2] : Int))) := by
    unfold parseDate
    show (match splitChar '-' [c1, c2, '-', c4, c5, c6, c7] with
      | [p0, p1] =>
        match goAtoi p0 with
        | none => Except.error ServiceError.invalidDate
        | some month =>
          match goAtoi p1 with
          | none => Except.error ServiceError.invalidDate
          | some year =>
            if month < 1 ∨ month > 12 then Except.error ServiceError.invalidDate
            else Except.ok (mkMonthDate year month)
      | _ => Except.error ServiceError.invalidDateFormat) = _
    rw [hsplit]
    simp only [ha1, ha2]
    rw [if_neg hmonth]
  rw [hparse]
  simp only [Except.map]
  unfold parseTimeToString
  show (Except.ok (String.mk (sprintf02d ((digitsVal [c1, c2] : Int)) ++
      '-' :: intToChars ((digitsVal [c4, c5, c6, c7] : Int)))) :
      Except ServiceError String) =
    Except.ok (String.mk [c1, c2, '-', c4, c5, c6, c7])
  rw [sprintf02d_two_digits hd1 hd2 hm1,
    intToChars_four_digits hd3 hd4 hd5 hd6 hc4]
  rfl

/-! ### Helper lemmas: the instant order -/

theorem GoTime.before_iff {a b : GoTime} : GoTime.before a b = true ↔
    (a.year < b.year ∨ (a.year = b.year ∧ (a.month < b.month ∨ (a.month = b.month ∧
      (a.day < b.day ∨ (a.day = b.day ∧ (a.hour < b.hour ∨ (a.hour = b.hour ∧
      (a.minute < b.minute ∨ (a.minute = b.minute ∧ (a.sec < b.sec ∨ (a.sec = b.sec ∧
      a.nsec < b.nsec)))))))))))) := by
  simp only [GoTime.before, decide_eq_true_eq]

theorem GoTime.before_self (a : GoTime) : GoTime.before a a = false := by
  rw [Bool.eq_false_iff]
  intro hq
  have hp := GoTime.before_iff.mp hq
  omega

theorem GoTime.before_asymm {a b : GoTime} (h : GoTime.before a b = true) :
    GoTime.before b a = false := by
  have hp := GoTime.before_iff.mp h
  rw [Bool.eq_false_iff]
  intro hq
  have hq2 := GoTime.before_iff.mp hq
  omega

theorem GoTime.before_false_ym {e s : GoTime} (h : GoTime.before e s = false) :
    ¬(e.year < s.year ∨ (e.year = s.year ∧ e.month < s.month)) := by
  rw [Bool.eq_false_iff] at h
  intro hc
  apply h
  apply GoTime.before_iff.mpr
  omega

theorem firstOfMonth_before_false {e s : GoTime} (h : GoTime.before e s = false) :
    GoTime.before (firstOfMonth e) (firstOfMonth s) = false := by
  have hy := GoTime.before_false_ym h
  rw [Bool.eq_false_iff]
  intro hq
  have hp := GoTime.before_iff.mp hq
  simp only [firstOfMonth] at hp
  omega

theorem monthsBetween_of_not_before {s e : GoTime}
    (h : GoTime.before e s = false) :
    monthsBetween s e = (e.year - s.year) * 12 + (e.month - s.month) := by
  simp only [monthsBetween, firstOfMonth_before_false h, Bool.false_eq_true,
    if_false]
  rfl

/-! ### Helper lemmas: the cost loop -/

theorem costLoop_foldl (now : GoTime) (fromD toD : Option GoTime) :
    ∀ (subs : List Subscription) (a : Int),
      subs.foldl
        (fun total sub =>
          if (clipEnd now toD sub).before (clipStart fromD sub) then total
          else total + sub.price *
            monthsBetween (clipStart fromD sub) (clipEnd now toD sub))
        a =
      a + (subs.map (costContribution now fromD toD)).sum := by
  intro subs
  induction subs with
  | nil => intro a; simp
  | cons s rest ih =>
    intro a
    simp only [List.foldl_cons, List.map_cons, List.sum_cons]
    rw [ih]
    unfold costContribution
    by_cases hb : (clipEnd now toD s).before (clipStart fromD s) = true
    · simp only [hb, if_true]
      ring
    · rw [Bool.not_eq_true] at hb
      simp only [hb, Bool.false_eq_true, if_false]
      ring

theorem costLoop_eq_sum (now : GoTime) (fromD toD : Option GoTime)
    (subs : List Subscription) :
    costLoop now fromD toD subs =
      (subs.map (costContribution now fromD toD)).sum := by
  unfold costLoop
  rw [costLoop_foldl]
  ring

theorem serviceSubscriptionsCost_ok {now : GoTime} {req : CostFilterRequest}
    {repo : CostRequest → Except ServiceError (List Subscription)}
    {userID : Option UUID} {fromD toD : Option GoTime} {subs : List Subscription}
    (h1 : parseOptUserID req.userID = .ok userID)
    (h2 : parseOptDate req.fromDate = .ok fromD)
    (h3 : parseOptDate req.toDate = .ok toD)
    (h4 : repo { userID := userID, serviceName := req.serviceName } = .ok subs) :
    serviceSubscriptionsCost now req repo = .ok (costLoop now fromD toD subs) := by
  unfold serviceSubscriptionsCost
  rw [bind, Except.instMonad]
  simp only [h1, h2, h3, h4, Except.bind, pure, Except.pure]

theorem serviceSubscriptionsCost_err_user {now : GoTime} {req : CostFilterRequest}
    {repo : CostRequest → Except ServiceError (List Subscription)} {e : ServiceError}
    (h : parseOptUserID req.userID = .error e) :
    serviceSubscriptionsCost now req repo = .error e := by
  unfold serviceSubscriptionsCost
  rw [bind, Except.instMonad]
  simp only [h, Except.bind]

theorem serviceSubscriptionsCost_err_from {now : GoTime} {req : CostFilterRequest}
    {repo : CostRequest → Except ServiceError (List Subscription)}
    {userID : Option UUID} {e : ServiceError}
    (h1 : parseOptUserID req.userID = .ok userID)
    (h2 : parseOptDate req.fromDate = .error e) :
    serviceSubscriptionsCost now req repo = .error e := by
  unfold serviceSubscriptionsCost
  rw [bind, Except.instMonad]
  simp only [h1, h2, Except.bind]

theorem serviceSubscriptionsCost_err_to {now : GoTime} {req : CostFilterRequest}
    {repo : CostRequest → Except ServiceError (List Subscription)}
    {userID : Option UUID} {fromD : Option GoTime} {e : ServiceError}
    (h1 : parseOptUserID req.userID = .ok userID)
    (h2 : parseOptDate req.fromDate = .ok fromD)
    (h3 : parseOptDate req.toDate = .error e) :
    serviceSubscriptionsCost now req repo = .error e := by
  unfold serviceSubscriptionsCost
  rw [bind, Except.instMonad]
  simp only [h1, h2, h3, Except.bind]

/-! ### Concrete sample values used by witnesses -/

/-- A concrete UUID (the `user_id` example from the repository's API
documentation, `60601fee-2bf1-4721-ae6f-7636e79a0cba`). -/
def sampleUUID : UUID :=
  ⟨[0x60, 0x60, 0x1f, 0xee, 0x2b, 0xf1, 0x47, 0x21,
    0xae, 0x6f, 0x76, 0x36, 0xe7, 0x9a, 0x0c, 0xba]⟩

/-- The spec's scenario subscription: `Yandex Plus`, price 400, start
`07-2025`, open-ended. -/
def yandexSub : Subscription :=
  { id := sampleUUID
    serviceName := "Yandex Plus"
    price := 400
    userID := sampleUUID
    startDate := mkMonthDate 2025 7
    endDate := none
    createdAt := GoTime.zero
    updatedAt := GoTime.zero }

/-- A subscription that ended in May 2024 (used for no-overlap and
now-independence witnesses). -/
def endedSub : Subscription :=
  { id := sampleUUID
    serviceName := "Spotify Premium"
    price := 100
    userID := sampleUUID
    startDate := mkMonthDate 2024 1
    endDate := some (mkMonthDate 2024 5)
    createdAt := GoTime.zero
    updatedAt := GoTime.zero }

/-! ### Claim theorems -/

/-- C1: every candidate subscription's contribution after clipping is
`price * months` with
`months = (endYear-startYear)*12 + (endMonth-startMonth)` on endpoints
normalized to the first of their month and no `+1` added; a clipped interval
that collapses to a single calendar month contributes 0; and the spec's
scenario (price 400, start `07-2025`, open-ended, queried with
`from=07-2025`, `to=09-2025`, evaluated at an instant not before `09-2025`)
totals `400 * 2 = 800`. -/
theorem subscriptionsCost_months_formula :
    (∀ (now : GoTime) (fromD toD : Option GoTime) (sub : Subscription),
      (clipEnd now toD sub).before (clipStart fromD sub) = false →
      costContribution now fromD toD sub =
        sub.price * (((clipEnd now toD sub).year - (clipStart fromD sub).year) * 12 +
          ((clipEnd now toD sub).month - (clipStart fromD sub).month)))
    ∧ (∀ (now : GoTime) (fromD toD : Option GoTime) (sub : Subscription),
      (clipEnd now toD sub).before (clipStart fromD sub) = false →
      (clipEnd now toD sub).year = (clipStart fromD sub).year →
      (clipEnd now toD sub).month = (clipStart fromD sub).month →
      costContribution now fromD toD sub = 0)
    ∧ (∀ now : GoTime, GoTime.before now (mkMonthDate 2025 9) = false →
      serviceSubscriptionsCost now
        { userID := none, serviceName := none,
          fromDate := some "07-2025", toDate := some "09-2025" }
        (fun _ => .ok [yandexSub]) = .ok 800) := by
  refine ⟨?_, ?_, ?_⟩
  · intro now fromD toD sub h
    unfold costContribution
    simp only [h, Bool.false_eq_true, if_false]
    rw [monthsBetween_of_not_before h]
  · intro now fromD toD sub h hy hm
    unfold costContribution
    simp only [h, Bool.false_eq_true, if_false]
    rw [monthsBetween_of_not_before h, hy, hm]
    ring
  · intro now hnow
    have h1 : parseOptUserID (none : Option String) = .ok (none : Option UUID) :=
      rfl
    have h2 : parseOptDate (some "07-2025") = .ok (some (mkMonthDate 2025 7)) := by
      decide
    have h3 : parseOptDate (some "09-2025") = .ok (some (mkMonthDate 2025 9)) := by
      decide
    rw [serviceSubscriptionsCost_ok h1 h2 h3 rfl]
    congr 1
    rw [costLoop_eq_sum]
    simp only [List.map_cons, List.map_nil, List.sum_cons, List.sum_nil,
      add_zero]
    have hce : clipEnd now (some (mkMonthDate 2025 9)) yandexSub =
        mkMonthDate 2025 9 := by
      unfold clipEnd minTime
      simp only [yandexSub]
      rw [hnow]
      simp
    unfold costContribution
    rw [hce]
    decide

/-- Witness for C1 at the concrete evaluation instant October 19, 2025. -/
theorem subscriptionsCost_months_formula_witness :
    GoTime.before ⟨2025, 10, 19, 0, 0, 0, 0⟩ (mkMonthDate 2025 9) = false ∧
    serviceSubscriptionsCost ⟨2025, 10, 19, 0, 0, 0, 0⟩
      { userID := none, serviceName := none,
        fromDate := some "07-2025", toDate := some "09-2025" }
      (fun _ => .ok [yandexSub]) = .ok 800 :=
  ⟨by decide,
    subscriptionsCost_months_formula.2.2 ⟨2025, 10, 19, 0, 0, 0, 0⟩ (by decide)⟩

/-- C2: an open-ended candidate (no recorded end month) takes the evaluation
instant `now` as its actual end — with no `to` bound its clipped end is
`now` — and with a `to` bound it is billed exactly as if it ended at
`min(now, to)`; in particular when `to` is before `now` the effective
clipped end is `to`, not `now`. -/
theorem subscriptionsCost_openEnded_clip (now t : GoTime) (fromD : Option GoTime)
    (sub : Subscription) (h : sub.endDate = none) :
    clipEnd now none sub = now
    ∧ costContribution now fromD (some t) sub =
        costContribution now fromD (some t)
          { sub with endDate := some (minTime now t) }
    ∧ (t.before now = true → clipEnd now (some t) sub = t) := by
  refine ⟨?_, ?_, ?_⟩
  · unfold clipEnd
    simp [h]
  · have hm : minTime (minTime now t) t = minTime now t := by
      unfold minTime
      by_cases hb : GoTime.before now t = true
      · simp [hb]
      · rw [Bool.not_eq_true] at hb
        simp [hb, GoTime.before_self]
    unfold costContribution clipEnd clipStart
    simp only [h]
    simp [hm]
  · intro hb
    unfold clipEnd minTime
    simp only [h]
    rw [GoTime.before_asymm hb]
    simp

/-- Witness for C2: `to = 09-2025` earlier than `now = 10-2025` clips the
open-ended scenario subscription at `to`. -/
theorem subscriptionsCost_openEnded_clip_witness :
    yandexSub.endDate = none ∧
    GoTime.before (mkMonthDate 2025 9) (mkMonthDate 2025 10) = true ∧
    clipEnd (mkMonthDate 2025 10) (some (mkMonthDate 2025 9)) yandexSub =
      mkMonthDate 2025 9 :=
  ⟨rfl, by decide,
    (subscriptionsCost_openEnded_clip (mkMonthDate 2025 10) (mkMonthDate 2025 9)
      none yandexSub rfl).2.2 (by decide)⟩

/-- C3: a candidate whose clipped interval satisfies `calcEnd < calcStart`
contributes exactly 0, and the whole `SubscriptionsCost` call still
succeeds — its result with that candidate present equals the successful
total over the remaining candidates. -/
theorem subscriptionsCost_no_overlap_skipped (now : GoTime)
    (req : CostFilterRequest) (userID : Option UUID) (fromD toD : Option GoTime)
    (pre post : List Subscription) (sub : Subscription)
    (h1 : parseOptUserID req.userID = .ok userID)
    (h2 : parseOptDate req.fromDate = .ok fromD)
    (h3 : parseOptDate req.toDate = .ok toD)
    (hno : (clipEnd now toD sub).before (clipStart fromD sub) = true) :
    costContribution now fromD toD sub = 0 ∧
    serviceSubscriptionsCost now req (fun _ => .ok (pre ++ sub :: post)) =
      .ok (costLoop now fromD toD (pre ++ post)) := by
  have hzero : costContribution now fromD toD sub = 0 := by
    unfold costContribution
    simp [hno]
  refine ⟨hzero, ?_⟩
  rw [serviceSubscriptionsCost_ok h1 h2 h3 rfl]
  congr 1
  rw [costLoop_eq_sum, costLoop_eq_sum]
  simp [List.map_append, List.sum_append, hzero]

/-- Witness for C3: a subscription that ended May 2024 has empty overlap with
the window `07-2025 .. 09-2025` and drops out of the total. -/
theorem subscriptionsCost_no_overlap_skipped_witness :
    (clipEnd (mkMonthDate 2025 10) (some (mkMonthDate 2025 9)) endedSub).before
      (clipStart (some (mkMonthDate 2025 7)) endedSub) = true ∧
    serviceSubscriptionsCost (mkMonthDate 2025 10)
      { userID := none, serviceName := none,
        fromDate := some "07-2025", toDate := some "09-2025" }
      (fun _ => .ok ([] ++ endedSub :: [yandexSub])) =
      .ok (costLoop (mkMonthDate 2025 10) (some (mkMonthDate 2025 7))
        (some (mkMonthDate 2025 9)) ([] ++ [yandexSub])) :=
  ⟨by decide,
    (subscriptionsCost_no_overlap_skipped (mkMonthDate 2025 10)
      { userID := none, serviceName := none,
        fromDate := some "07-2025", toDate := some "09-2025" }
      none (some (mkMonthDate 2025 7)) (some (mkMonthDate 2025 9))
      [] [yandexSub] endedSub rfl (by decide) (by decide) (by decide)).2⟩

/-- C10: when every candidate has a recorded end month the aggregation is
independent of the evaluation instant — two runs at different current times
return the same result. -/
theorem subscriptionsCost_now_independent (now1 now2 : GoTime)
    (req : CostFilterRequest) (subs : List Subscription)
    (hall : ∀ sub ∈ subs, sub.endDate.isSome = true) :
    serviceSubscriptionsCost now1 req (fun _ => .ok subs) =
      serviceSubscriptionsCost now2 req (fun _ => .ok subs) := by
  cases hu : parseOptUserID req.userID with
  | error e =>
    rw [serviceSubscriptionsCost_err_user hu, serviceSubscriptionsCost_err_user hu]
  | ok u =>
    cases hf : parseOptDate req.fromDate with
    | error e =>
      rw [serviceSubscriptionsCost_err_from hu hf,
        serviceSubscriptionsCost_err_from hu hf]
    | ok fromD =>
      cases ht : parseOptDate req.toDate with
      | error e =>
        rw [serviceSubscriptionsCost_err_to hu hf ht,
          serviceSubscriptionsCost_err_to hu hf ht]
      | ok toD =>
        rw [serviceSubscriptionsCost_ok hu hf ht rfl,
          serviceSubscriptionsCost_ok hu hf ht rfl]
        congr 1
        rw [costLoop_eq_sum, costLoop_eq_sum]
        congr 1
        apply List.map_congr_left
        intro sub hmem
        obtain ⟨e, he⟩ := Option.isSome_iff_exists.mp (hall sub hmem)
        unfold costContribution clipEnd clipStart
        simp only [he]

/-- Witness for C10: the ended subscription gives the same total at two
different evaluation instants. -/
theorem subscriptionsCost_now_independent_witness :
    (∀ sub ∈ [endedSub], sub.endDate.isSome = true) ∧
    serviceSubscriptionsCost (mkMonthDate 2025 10)
      { userID := none, serviceName := none, fromDate := none, toDate := none }
      (fun _ => .ok [endedSub]) =
    serviceSubscriptionsCost (mkMonthDate 2031 1)
      { userID := none, serviceName := none, fromDate := none, toDate := none }
      (fun _ => .ok [endedSub]) :=
  ⟨fun sub hmem => by rw [List.mem_singleton.mp hmem]; rfl,
    subscriptionsCost_now_independent (mkMonthDate 2025 10) (mkMonthDate 2031 1)
      { userID := none, serviceName := none, fromDate := none, toDate := none }
      [endedSub]
      (fun sub hmem => by rw [List.mem_singleton.mp hmem]; rfl)⟩

/-- A UUID distinct from `sampleUUID`, for not-found witnesses. -/
def otherUUID : UUID :=
  ⟨[0x00, 0x01, 0x02, 0x03, 0x04, 0x05, 0x06, 0x07,
    0x08, 0x09, 0x0a, 0x0b, 0x0c, 0x0d, 0x0e, 0x0f]⟩

/-- C6: a create request whose end month parses strictly before its start
month fails with the dedicated ordering-violation error, for EVERY repository
implementation — the repository create operation is never reached, so no
partial write can occur.  The parsed years are restricted to the calendar
range `0..9999` (every date of the spec's `MM-YYYY` month-granularity form):
there Go's `time.Date` is exact, so the embedded dates are the program's
values and the embedded `before` is exactly the program's `Before` on them. -/
theorem createSubscription_ordering_violation (newID : UUID)
    (req : CreateSubscriptionRequest) (sd ed : GoTime) (es : String)
    (hs : parseDate req.startDate = .ok sd)
    (he : req.endDate = some es)
    (hed : parseDate es = .ok ed)
    (_hys1 : 0 ≤ sd.year) (_hys2 : sd.year ≤ 9999)
    (_hye1 : 0 ≤ ed.year) (_hye2 : ed.year ≤ 9999)
    (hbefore : ed.before sd = true) :
    ∀ repo : Subscription → Except ServiceError Subscription,
      serviceCreateSubscription newID req repo = .error .endBeforeStart := by
  intro repo
  unfold serviceCreateSubscription
  rw [bind, Except.instMonad]
  simp only [hs, Except.bind, he, hed, hbefore, if_true]

/-- Witness for C6: start `09-2025`, end `07-2025`, with a repository that
would accept anything. -/
theorem createSubscription_ordering_violation_witness :
    parseDate "09-2025" = .ok (mkMonthDate 2025 9) ∧
    parseDate "07-2025" = .ok (mkMonthDate 2025 7) ∧
    GoTime.before (mkMonthDate 2025 7) (mkMonthDate 2025 9) = true ∧
    serviceCreateSubscription sampleUUID
      { serviceName := "Yandex Plus", price := 400,
        userID := "60601fee-2bf1-4721-ae6f-7636e79a0cba",
        startDate := "09-2025", endDate := some "07-2025" }
      (fun s => .ok s) = .error .endBeforeStart :=
  ⟨by decide, by decide, by decide,
    createSubscription_ordering_violation sampleUUID
      { serviceName := "Yandex Plus", price := 400,
        userID := "60601fee-2bf1-4721-ae6f-7636e79a0cba",
        startDate := "09-2025", endDate := some "07-2025" }
      (mkMonthDate 2025 9) (mkMonthDate 2025 7) "07-2025"
      (by decide) rfl (by decide) (by decide) (by decide) (by decide)
      (by decide) (by decide) (fun s => .ok s)⟩

/-- C7: an update request supplying zero fields is a pure read — the service
returns the stored entity unchanged, the table is untouched, and so is the
modification timestamp; and whenever at least one field is supplied, a
successful repository update stamps the returned entity's `updated_at` with
the write time. -/
theorem updateSubscription_zero_fields_pure_read (now : GoTime)
    (db : List Subscription) (id : UUID) :
    (∀ req : UpdateSubscriptionRequest,
      req.serviceName = none → req.price = none → req.startDate = none →
      req.endDate = none →
      serviceUpdateSubscription now db id req =
        (repoSubscriptionByID db id).map (fun s => (s, db)))
    ∧ (∀ u : UpdateSubscription, hasAnyField u = true →
      ∀ (sub : Subscription) (db2 : List Subscription),
        repoUpdateSubscription now db id u = .ok (sub, db2) →
        sub.updatedAt = now) := by
  constructor
  · intro req hsn hp hsd hed
    unfold serviceUpdateSubscription
    rw [bind, Except.instMonad]
    simp only [hsn, hp, hsd, hed, parseOptDate, Except.bind]
    rfl
  · intro u hu sub db2 hok
    unfold repoUpdateSubscription at hok
    rw [hu] at hok
    simp only [Bool.true_eq_false, if_false] at hok
    cases hf : db.find? (fun s => decide (s.id = id)) with
    | none =>
      rw [hf] at hok
      exact absurd hok (by simp)
    | some s =>
      rw [hf] at hok
      have h2 : (applyUpdate now u s,
          db.map (fun r => if r.id = id then applyUpdate now u r else r)) =
          (sub, db2) := by
        injection hok
      have hsub : applyUpdate now u s = sub := congrArg Prod.fst h2
      rw [← hsub]
      rfl

/-- Witness for C7: the all-absent update on a one-row table reads the row
back unchanged. -/
theorem updateSubscription_zero_fields_pure_read_witness :
    serviceUpdateSubscription (mkMonthDate 2025 10) [endedSub] sampleUUID
      { serviceName := none, price := none, startDate := none, endDate := none } =
      (repoSubscriptionByID [endedSub] sampleUUID).map (fun s => (s, [endedSub])) :=
  (updateSubscription_zero_fields_pure_read (mkMonthDate 2025 10) [endedSub]
    sampleUUID).1
    { serviceName := none, price := none, startDate := none, endDate := none }
    rfl rfl rfl rfl

/-- C8: the pagination metadata produced by the list endpoint always
satisfies `has_next_page = total > page*pageSize` and
`has_prev_page = page > 1`, with the requested page and page size echoed
back; and at `total=42, page=5, page_size=10` the metadata is
`has_next_page = false`, `has_prev_page = true`. -/
theorem subscriptions_pagination_metadata :
    (∀ (db : List Subscription) (filter : SubscriptionFilterRequest)
        (out : SubscriptionsOutput),
      serviceSubscriptions db filter = .ok out →
      out.page = filter.page ∧ out.pageSize = filter.pageSize ∧
      out.hasNextPage = decide (out.total > out.page * out.pageSize) ∧
      out.hasPrevPage = decide (out.page > 1))
    ∧ (MakeSubscriptionsOutput [] 42 5 10).hasNextPage = false
    ∧ (MakeSubscriptionsOutput [] 42 5 10).hasPrevPage = true
    ∧ (∀ out : SubscriptionsOutput,
      serviceSubscriptions (List.replicate 42 endedSub)
        { userID := none, serviceName := none, page := 5, pageSize := 10 } =
        .ok out →
      out.total = 42 ∧ out.hasNextPage = false ∧ out.hasPrevPage = true) := by
  have hmain : ∀ (db : List Subscription) (filter : SubscriptionFilterRequest)
      (out : SubscriptionsOutput),
      serviceSubscriptions db filter = .ok out →
      out.page = filter.page ∧ out.pageSize = filter.pageSize ∧
      out.hasNextPage = decide (out.total > out.page * out.pageSize) ∧
      out.hasPrevPage = decide (out.page > 1) := by
    intro db filter out h
    unfold serviceSubscriptions at h
    rw [bind, Except.instMonad] at h
    cases hu : parseOptUserID filter.userID with
    | error e =>
      rw [hu] at h
      exact absurd h (by simp [Except.bind])
    | ok userID =>
      rw [hu] at h
      simp only [Except.bind] at h
      cases hr : repoSubscriptions db
          { userID := userID, serviceName := filter.serviceName,
            limit := filter.pageSize,
            offset := (filter.page - 1) * filter.pageSize } with
      | error e =>
        rw [hr] at h
        exact absurd h (by simp)
      | ok pair =>
        rw [hr] at h
        obtain ⟨rows, total⟩ := pair
        simp only [pure, Except.pure, Except.ok.injEq] at h
        subst h
        simp [MakeSubscriptionsOutput]
  refine ⟨hmain, by decide, by decide, ?_⟩
  intro out h
  have hp := hmain (List.replicate 42 endedSub)
    { userID := none, serviceName := none, page := 5, pageSize := 10 } out h
  have htotal : out.total = 42 := by
    unfold serviceSubscriptions at h
    rw [bind, Except.instMonad] at h
    simp only [parseOptUserID, Except.bind] at h
    rw [show repoSubscriptions (List.replicate 42 endedSub)
      { userID := none, serviceName := none, limit := 10,
        offset := (5 - 1) * 10 } =
      .ok ((List.replicate 42 endedSub).drop 40 |>.take 10, 42) by decide] at h
    simp only [pure, Except.pure, Except.ok.injEq] at h
    subst h
    rfl
  refine ⟨htotal, ?_, ?_⟩
  · rw [hp.2.2.1, htotal, hp.1, hp.2.1]
    decide
  · rw [hp.2.2.2, hp.1]
    decide

/-- Witness for C8 on a 42-row table queried at page 5, size 10. -/
theorem subscriptions_pagination_metadata_witness :
    serviceSubscriptions (List.replicate 42 endedSub)
      { userID := none, serviceName := none, page := 5, pageSize := 10 } =
      .ok (MakeSubscriptionsOutput
        (((List.replicate 42 endedSub).drop 40 |>.take 10).map subscriptionToDto)
        42 5 10) ∧
    (MakeSubscriptionsOutput
        (((List.replicate 42 endedSub).drop 40 |>.take 10).map subscriptionToDto)
        42 5 10).hasNextPage = false :=
  ⟨by decide,
    ((subscriptions_pagination_metadata.2.2.2
      (MakeSubscriptionsOutput
        (((List.replicate 42 endedSub).drop 40 |>.take 10).map subscriptionToDto)
        42 5 10) (by decide)).2.1)⟩

/-- C9: deleting an identifier for which no subscription exists signals
not-found rather than succeeding silently — the repository maps the
zero-rows-affected delete to `domain.ErrNotFound` and the service surfaces
it as not-found. -/
theorem deleteSubscription_notFound (db : List Subscription) (id : UUID)
    (h : ∀ s ∈ db, s.id ≠ id) :
    repoDeleteSubscription db id = .error .notFound ∧
    serviceDeleteSubscription db id = .error .notFound := by
  have hr : repoDeleteSubscription db id = .error .notFound := by
    unfold repoDeleteSubscription
    have hfilter : db.filter (fun s => !(decide (s.id = id))) = db := by
      apply List.filter_eq_self.mpr
      intro s hs
      simp [h s hs]
    rw [hfilter]
    simp
  refine ⟨hr, ?_⟩
  unfold serviceDeleteSubscription
  rw [hr]

/-- Witness for C9: deleting an absent identifier from a one-row table. -/
theorem deleteSubscription_notFound_witness :
    repoDeleteSubscription [endedSub] otherUUID = .error .notFound ∧
    serviceDeleteSubscription [endedSub] otherUUID = .error .notFound :=
  deleteSubscription_notFound [endedSub] otherUUID
    (fun s hs => by rw [List.mem_singleton.mp hs]; decide)

/-! ### Helper lemmas: `goAtoi` against the shape predicates -/

theorem goAtoi_eq (cs : List Char) :
    goAtoi cs = if atoiOk cs = true then some (segmentVal cs) else none := by
  cases cs with
  | nil => rfl
  | cons c rest =>
    by_cases hm : c = '-'
    · subst hm
      cases rest with
      | nil => rfl
      | cons d ds =>
        simp only [goAtoi, atoiOk, intSegment, segmentVal]
        by_cases had : allDigits (d :: ds) = true
        all_goals simp [had] <;> split_ifs <;> first | rfl | omega
    · by_cases hp : c = '+'
      · subst hp
        cases rest with
        | nil => rfl
        | cons d ds =>
          simp only [goAtoi, atoiOk, intSegment, segmentVal]
          by_cases had : allDigits (d :: ds) = true
          all_goals simp [had, hm] <;> split_ifs <;> first | rfl | omega
      · simp only [goAtoi, atoiOk, intSegment, segmentVal]
        by_cases had : allDigits (c :: rest) = true
        all_goals simp [had, hm, hp] <;> split_ifs <;> first | rfl | omega

/-- The date parser's decision, phrased on the split segments by shape and
value (used to characterize `parseDate`'s success set). -/
def parseDateShape (ps : List (List Char)) : Except ServiceError GoTime :=
  match ps with
  | [p0, p1] =>
    if atoiOk p0 = true then
      if atoiOk p1 = true then
        if segmentVal p0 < 1 ∨ segmentVal p0 > 12 then
          Except.error ServiceError.invalidDate
        else Except.ok (mkMonthDate (segmentVal p1) (segmentVal p0))
      else Except.error ServiceError.invalidDate
    else Except.error ServiceError.invalidDate
  | _ => Except.error ServiceError.invalidDateFormat

theorem parseDate_eq (s : String) :
    parseDate s = parseDateShape (splitChar '-' s.data) := by
  unfold parseDate parseDateShape
  cases hsp : splitChar '-' s.data with
  | nil => rfl
  | cons p0 tl =>
    cases tl with
    | nil => rfl
    | cons p1 tl2 =>
      cases tl2 with
      | cons q qs => rfl
      | nil =>
        simp only [goAtoi_eq]
        by_cases h0 : atoiOk p0 = true
        · simp only [h0, if_true]
          by_cases h1 : atoiOk p1 = true
          · simp only [h1, if_true]
          · simp [h1]
        · simp [h0]

/-- C5 (amended): the date parser succeeds exactly on strings of the shape
`<int>-<int>` where both segments are `strconv.Atoi`-valid integers (an
optional single sign followed by ASCII digits, value within `int64`) and the
first segment's value lies in `[1,12]`; every success whose year value lies
in the calendar range `0..9999` — in particular every four-digit year, the
domain of the original claim, where Go's `time.Date` arithmetic is exact —
has month in `[1,12]` and is normalized to the first day of the month at
00:00:00 UTC; a segment count other than two yields `InvalidDateFormat`, a
non-`Atoi`-valid segment or an out-of-range month yields `InvalidDate`; in
particular `"13-2025"`, `"00-2025"`, `"2025-13"`, `"7/2025"` and `""` are
all rejected. -/
theorem parseDate_success_characterization :
    (∀ s : String, (∃ t, parseDate s = .ok t) ↔ goDateShape s = true)
    ∧ (∀ (s : String) (t : GoTime), parseDate s = .ok t →
        0 ≤ t.year → t.year ≤ 9999 →
        1 ≤ t.month ∧ t.month ≤ 12 ∧ t.day = 1 ∧ t.hour = 0 ∧ t.minute = 0 ∧
        t.sec = 0 ∧ t.nsec = 0)
    ∧ (∀ s : String, (splitChar '-' s.data).length ≠ 2 →
        parseDate s = .error .invalidDateFormat)
    ∧ (∀ (s : String) (p0 p1 : List Char), splitChar '-' s.data = [p0, p1] →
        (atoiOk p0 = false ∨ atoiOk p1 = false) →
        parseDate s = .error .invalidDate)
    ∧ (∀ (s : String) (p0 p1 : List Char), splitChar '-' s.data = [p0, p1] →
        atoiOk p0 = true → atoiOk p1 = true →
        (segmentVal p0 < 1 ∨ segmentVal p0 > 12) →
        parseDate s = .error .invalidDate)
    ∧ parseDate "13-2025" = .error .invalidDate
    ∧ parseDate "00-2025" = .error .invalidDate
    ∧ parseDate "2025-13" = .error .invalidDate
    ∧ parseDate "7/2025" = .error .invalidDateFormat
    ∧ parseDate "" = .error .invalidDateFormat := by
  refine ⟨?_, ?_, ?_, ?_, ?_, by decide, by decide, by decide, by decide, by decide⟩
  · intro s
    rw [parseDate_eq]
    unfold goDateShape
    cases hsp : splitChar '-' s.data with
    | nil => simp [parseDateShape]
    | cons p0 tl =>
      cases tl with
      | nil => simp [parseDateShape]
      | cons p1 tl2 =>
        cases tl2 with
        | cons q qs => simp [parseDateShape]
        | nil =>
          simp only [parseDateShape]
          by_cases h0 : atoiOk p0 = true
          · by_cases h1 : atoiOk p1 = true
            · by_cases hrange : segmentVal p0 < 1 ∨ segmentVal p0 > 12
              · rw [if_pos h0, if_pos h1, if_pos hrange]
                simp only [h0, h1]
                simp
                omega
              · rw [if_pos h0, if_pos h1, if_neg hrange]
                simp only [h0, h1]
                simp
                omega
            · rw [if_pos h0, if_neg h1]
              simp [h1]
          · rw [if_neg h0]
            simp [h0]
  · intro s t h hylo hyhi
    rw [parseDate_eq] at h
    cases hsp : splitChar '-' s.data with
    | nil => rw [hsp] at h; exact absurd h (by simp [parseDateShape])
    | cons p0 tl =>
      cases tl with
      | nil => rw [hsp] at h; exact absurd h (by simp [parseDateShape])
      | cons p1 tl2 =>
        cases tl2 with
        | cons q qs => rw [hsp] at h; exact absurd h (by simp [parseDateShape])
        | nil =>
          rw [hsp] at h
          simp only [parseDateShape] at h
          by_cases h0 : atoiOk p0 = true
          · by_cases h1 : atoiOk p1 = true
            · by_cases hrange : segmentVal p0 < 1 ∨ segmentVal p0 > 12
              · rw [if_pos h0, if_pos h1, if_pos hrange] at h
                exact absurd h (by simp)
              · rw [if_pos h0, if_pos h1, if_neg hrange] at h
                have ht : mkMonthDate (segmentVal p1) (segmentVal p0) = t := by
                  injection h
                rw [← ht]
                refine ⟨?_, ?_, rfl, rfl, rfl, rfl, rfl⟩
                · show 1 ≤ segmentVal p0
                  omega
                · show segmentVal p0 ≤ 12
                  omega
            · rw [if_pos h0, if_neg h1] at h
              exact absurd h (by simp)
          · rw [if_neg h0] at h
            exact absurd h (by simp)
  · intro s hlen
    rw [parseDate_eq]
    cases hsp : splitChar '-' s.data with
    | nil => rfl
    | cons p0 tl =>
      cases tl with
      | nil => rfl
      | cons p1 tl2 =>
        cases tl2 with
        | cons q qs => rfl
        | nil =>
          rw [hsp] at hlen
          exact absurd rfl hlen
  · intro s p0 p1 hsp hbad
    rw [parseDate_eq, hsp]
    simp only [parseDateShape]
    rcases hbad with hb | hb
    · rw [if_neg (by simp [hb])]
    · by_cases h0 : atoiOk p0 = true
      · rw [if_pos h0, if_neg (by simp [hb])]
      · rw [if_neg h0]
  · intro s p0 p1 hsp h0 h1 hrange
    rw [parseDate_eq, hsp]
    simp only [parseDateShape]
    rw [if_pos h0, if_pos h1, if_pos hrange]

/-- Counterexample to C5 as stated: `"7-2025"` is NOT of the exact
`MM-YYYY` form (its month has one digit), yet the parser accepts it. -/
theorem parseDate_accepts_non_exact_form :
    parseDate "7-2025" = .ok (mkMonthDate 2025 7) ∧
    specExactMMYYYY "7-2025" = false := by
  exact ⟨by decide, by decide⟩

/-- Witness for C5 (amended): `"7/2025"` has one segment, so the parser
reports the format error; and the success at `"07-2025"` (calendar-range
year) is day-1, 00:00:00 normalized. -/
theorem parseDate_success_characterization_witness :
    ((splitChar '-' "7/2025".data).length ≠ 2 ∧
      parseDate "7/2025" = .error .invalidDateFormat) ∧
    (1 ≤ (mkMonthDate 2025 7).month ∧ (mkMonthDate 2025 7).month ≤ 12 ∧
      (mkMonthDate 2025 7).day = 1 ∧ (mkMonthDate 2025 7).hour = 0 ∧
      (mkMonthDate 2025 7).minute = 0 ∧ (mkMonthDate 2025 7).sec = 0 ∧
      (mkMonthDate 2025 7).nsec = 0) :=
  ⟨⟨by decide, parseDate_success_characterization.2.2.1 "7/2025" (by decide)⟩,
    parseDate_success_characterization.2.1 "07-2025" (mkMonthDate 2025 7)
      (by decide) (by decide) (by decide)⟩

/-- Counterexample to C4 as stated: `"01-0001"` is a valid `MM-YYYY` string
(two-digit month in range, four-digit year), but serializing the parsed date
prints the year un-padded as `"01-1"`, not `"01-0001"`. -/
theorem parseDate_roundTrip_fails_leading_zero_year :
    specExactMMYYYY "01-0001" = true ∧
    (parseDate "01-0001").map parseTimeToString = .ok "01-1" ∧
    ¬ ((parseDate "01-0001").map parseTimeToString = .ok "01-0001") := by
  exact ⟨by decide, by decide, by decide⟩

/-- Witness for C4 (amended) at `"07-2025"`. -/
theorem parseDate_roundTrip_witness :
    specExactMMYYYY "07-2025" = true ∧ "07-2025".data[3]? ≠ some '0' ∧
    (parseDate "07-2025").map parseTimeToString = .ok "07-2025" :=
  ⟨by decide, by decide, parseDate_roundTrip "07-2025" (by decide) (by decide)⟩
